import Mathlib

/-!
Verification development for `restore-exif-iOS.py`, a batch tool that restores
timestamp metadata to WhatsApp-exported media files from their filenames.

The Python source is shallowly embedded: pure string helpers become Lean
functions on `List Char` / `String`; the per-file processing loop of `main`
becomes an explicit step function over an abstract file-system state; calls
into the `piexif` library are modelled by an abstract exif-container state
(`ImageBytes`); Python exceptions become `Option` results or explicit
`crash` outcomes.
-/

/-! ## Character and digit helpers -/

/-- The decimal digit characters, as produced by Python's `%`-style decimal
formatting (used by `strftime`). -/
def digitChar : Nat → Char
  | 0 => '0' | 1 => '1' | 2 => '2' | 3 => '3' | 4 => '4'
  | 5 => '5' | 6 => '6' | 7 => '7' | 8 => '8' | 9 => '9'
  | _ => '*'

/-- Numeric value of a decimal digit character, as in Python's `int()` on a
single digit (only meaningful on `'0'..'9'`). -/
def digitVal (c : Char) : Nat := c.toNat - 48

/-- `natOfDigitsAcc acc cs` accumulates the decimal value of the digit string
`cs` on top of `acc`; `natOfDigitsAcc 0 cs` models Python's `int(cs)` for a
string of ASCII digits. -/
def natOfDigitsAcc (acc : Nat) : List Char → Nat
  | [] => acc
  | c :: cs => natOfDigitsAcc (acc * 10 + digitVal c) cs

/-- Python's `int()` on a string of ASCII decimal digits. -/
def natOfDigits (cs : List Char) : Nat := natOfDigitsAcc 0 cs

/-- Fixed-width, zero-padded decimal rendering: exactly `w` characters, the
low `w` decimal digits of `n`.  Models `%02d`-style formatting (strftime's
`%m`, `%d`, `%H`, `%M`, `%S`) when `n < 10 ^ w`. -/
def padDigits : Nat → Nat → List Char
  | 0, _ => []
  | w + 1, n => padDigits w (n / 10) ++ [digitChar (n % 10)]

/-- `padDigits` packaged as a `String`. -/
def padStr (w n : Nat) : String := ⟨padDigits w n⟩

/-- Unpadded decimal rendering of a year, as glibc's `strftime("%Y")` prints
it (no zero padding; `datetime.strftime` delegates to the C library).  Years
reaching this function through the modelled code come from a four-digit
filename field, hence are at most 9999, which this case split covers. -/
def yearChars (n : Nat) : List Char :=
  if n < 10 then padDigits 1 n
  else if n < 100 then padDigits 2 n
  else if n < 1000 then padDigits 3 n
  else padDigits 4 n

/-! ## String splitting: `re.split("[.-]", filename)` -/

/-- Separator class of the regex `[.-]`. -/
def isSep (c : Char) : Bool := c = '.' || c = '-'

/-- Model of Python's `re.split("[.-]", s)`: the maximal chunks between
separator occurrences, empty chunks included (`re.split` keeps them). -/
def splitSep : List Char → List (List Char)
  | [] => [[]]
  | c :: cs =>
    if isSep c then [] :: splitSep cs
    else
      match splitSep cs with
      | [] => [[c]]
      | t :: ts => (c :: t) :: ts

/-! ## The timestamp data model -/

/-- A parsed capture timestamp (Python `datetime.datetime`, seconds
resolution, naive). -/
structure DateTime where
  year : Nat
  month : Nat
  day : Nat
  hour : Nat
  minute : Nat
  second : Nat
deriving DecidableEq

/-- Gregorian leap-year rule (as used by `datetime`). -/
def leapYear (y : Nat) : Bool := (y % 4 = 0 && y % 100 ≠ 0) || y % 400 = 0

/-- Number of days in a month (as enforced by the `datetime` constructor). -/
def daysInMonth (y m : Nat) : Nat :=
  if m = 2 then (if leapYear y then 29 else 28)
  else if m = 4 ∨ m = 6 ∨ m = 9 ∨ m = 11 then 30
  else 31

/-- The combined validity condition under which
`datetime.strptime(s, "%Y%m%d%H%M%S")` succeeds on a 14-digit string: the
two-digit field regexes of `_strptime` admit months `01`-`12`, days `01`-`31`,
hours `00`-`23`, minutes `00`-`59`, seconds `00`-`61`, and the `datetime`
constructor then requires `MINYEAR ≤ year`, a day within the month and
seconds at most 59. -/
def validDateTime (y mo d h mi s : Nat) : Bool :=
  1 ≤ y && y ≤ 9999 && 1 ≤ mo && mo ≤ 12 && 1 ≤ d && d ≤ daysInMonth y mo
    && h ≤ 23 && mi ≤ 59 && s ≤ 59

/-- Model of `datetime.strptime(s, "%Y%m%d%H%M%S")` restricted to its
reachable inputs.  On a 14-character digit string the variable-width fields of
`_strptime` (`%Y` up to 4 digits, the rest up to 2) must all take their
maximal width to consume the whole string, so the parse is the fixed split
4-2-2-2-2-2; it succeeds exactly when `validDateTime` holds.  Every call in
the source happens after the WhatsApp filename regex matched, which forces
exactly 14 digit characters; other lengths (where Python could parse a
narrower year) are mapped to `none` here. -/
def strptimeYmdHMS (cs : List Char) : Option DateTime :=
  if cs.length = 14 && cs.all Char.isDigit then
    if validDateTime (natOfDigits (cs.take 4)) (natOfDigits ((cs.drop 4).take 2))
        (natOfDigits ((cs.drop 6).take 2)) (natOfDigits ((cs.drop 8).take 2))
        (natOfDigits ((cs.drop 10).take 2)) (natOfDigits ((cs.drop 12).take 2)) then
      some (DateTime.mk (natOfDigits (cs.take 4)) (natOfDigits ((cs.drop 4).take 2))
        (natOfDigits ((cs.drop 6).take 2)) (natOfDigits ((cs.drop 8).take 2))
        (natOfDigits ((cs.drop 10).take 2)) (natOfDigits ((cs.drop 12).take 2)))
    else none
  else none

/-- Source `get_datetime`: split the filename on `.` and `-`, join tokens
2..7, parse as `YYYYMMDDHHMMSS`.  `none` models the `ValueError` that
`strptime` raises on failure. -/
def get_datetime (filename : String) : Option DateTime :=
  strptimeYmdHMS (((splitSep filename.data).drop 2).take 6).flatten

/-- Model of `datetime.strftime("%Y:%m:%d %H:%M:%S")` (glibc: `%Y` unpadded,
the other fields zero-padded to width two). -/
def fmtDT (dt : DateTime) : String :=
  ⟨yearChars dt.year⟩ ++ ":" ++ padStr 2 dt.month ++ ":" ++ padStr 2 dt.day
    ++ " " ++ padStr 2 dt.hour ++ ":" ++ padStr 2 dt.minute ++ ":" ++ padStr 2 dt.second

/-- Source `get_exif_datestr`: format the parsed timestamp for the Exif tag.
`none` models the propagated `ValueError` when parsing fails. -/
def get_exif_datestr (filename : String) : Option String :=
  (get_datetime filename).map fmtDT

/-! ## The WhatsApp filename regexes -/

/-- Consume exactly `n` ASCII digits (`\d{n}`, with `\d` read as ASCII digits;
Python without `re.ASCII` would also admit other Unicode decimal digits, a
generality the filenames at issue never use). -/
def consumeDigits : Nat → List Char → Option (List Char)
  | 0, cs => some cs
  | _ + 1, [] => none
  | n + 1, c :: cs => if c.isDigit then consumeDigits n cs else none

/-- Consume an exact literal character sequence. -/
def consumeLit : List Char → List Char → Option (List Char)
  | [], cs => some cs
  | _ :: _, [] => none
  | l :: ls, c :: cs => if c = l then consumeLit ls cs else none

/-- Consume `\d{4}(-\d{2}){5}`, the date part of both filename regexes. -/
def consumeDateFields (r : List Char) : Option (List Char) :=
  (consumeDigits 4 r).bind fun r =>
  (consumeLit ['-'] r).bind fun r =>
  (consumeDigits 2 r).bind fun r =>
  (consumeLit ['-'] r).bind fun r =>
  (consumeDigits 2 r).bind fun r =>
  (consumeLit ['-'] r).bind fun r =>
  (consumeDigits 2 r).bind fun r =>
  (consumeLit ['-'] r).bind fun r =>
  (consumeDigits 2 r).bind fun r =>
  (consumeLit ['-'] r).bind fun r =>
  consumeDigits 2 r

/-- Model of `re.match(r'\d{8}-TAG-\d{4}-\d{2}-\d{2}-\d{2}-\d{2}-\d{2}\..+', fn)`
as a Bool.  `re.match` anchors at the start only; every piece before `\..+` is
fixed-width, so the match is the unique straight-line consumption, and `.+`
needs one character after the literal dot that is not a newline. -/
def matchMediaPattern (tag : String) (fn : String) : Bool :=
  match (consumeDigits 8 fn.data).bind (fun r =>
          (consumeLit ('-' :: (tag.data ++ ['-'])) r).bind consumeDateFields) with
  | none => false
  | some r =>
    match consumeLit ['.'] r with
    | none => false
    | some [] => false
    | some (c :: _) => c != '\n'

/-- Source `is_whatsapp_img` (`img_filename_regex`). -/
def is_whatsapp_img (filename : String) : Bool := matchMediaPattern "PHOTO" filename

/-- Source `is_whatsapp_vid` (`vid_filename_regex`). -/
def is_whatsapp_vid (filename : String) : Bool := matchMediaPattern "VIDEO" filename

/-! ## Generic string helpers -/

/-- Python `str.endswith`. -/
def strEndsWith (s t : String) : Bool :=
  decide (t.data.length ≤ s.data.length)
    && s.data.drop (s.data.length - t.data.length) == t.data

/-- Python `str.startswith`. -/
def strStartsWith (s t : String) : Bool := s.data.take t.data.length == t.data

/-- Python `str.rfind` on a single character, as an `Option`al index of the
last occurrence. -/
def rfind (c : Char) : List Char → Option Nat
  | [] => none
  | x :: xs =>
    match rfind c xs with
    | some i => some (i + 1)
    | none => if x = c then some 0 else none

/-! ## `os.path.splitext` and the extension filter -/

/-- Model of `posixpath.splitext` (`genericpath._splitext` with `sep = '/'`,
no `altsep`): the extension starts at the last dot after the last slash,
unless every character of the basename before that dot is itself a dot
(leading dots carry no extension). -/
def splitext (p : String) : String × String :=
  let cs := p.data
  let fstart := match rfind '/' cs with | some i => i + 1 | none => 0
  match rfind '.' cs with
  | none => (p, "")
  | some di =>
    if fstart ≤ di then
      if ((cs.drop fstart).take (di - fstart)).any (fun c => c != '.') then
        (⟨cs.take di⟩, ⟨cs.drop di⟩)
      else (p, "")
    else (p, "")

/-- The allow-list of `main` (source line 78):
`set(['.mp4', '.jpg', '.3gp', '.jpeg'])`. -/
def allowed_extensions : List String := [".mp4", ".jpg", ".3gp", ".jpeg"]

/-- Source `filter_filepaths`: keep the pairs whose literal
`os.path.splitext` extension is in the allow-list. -/
def filter_filepaths (filepaths : List (String × String)) (allowed_ext : List String) :
    List (String × String) :=
  filepaths.filter (fun p => decide ((splitext p.2).2 ∈ allowed_ext))

/-- Source `filtered_filepaths`: the enumerated pairs that are not in the
included list. -/
def filtered_filepaths (unfiltered_fps filepaths : List (String × String)) :
    List (String × String) :=
  unfiltered_fps.filter (fun i => !(decide (i ∈ filepaths)))

/-! ## File enumeration (`get_filepaths`) -/

/-- The always-ignored filenames of `get_filepaths`. -/
def ignored_files : List String := [".DS_Store", "_chat.txt"]

/-- The filename filter shared by both enumeration modes: not an ignored
name, and not starting with `._`. -/
def keepName (f : String) : Bool :=
  !(decide (f ∈ ignored_files)) && !(strStartsWith f "._")

/-- The non-recursive branch of `get_filepaths`.  Its filesystem input is
modelled as the `os.listdir` result paired with each entry's
`os.path.isfile` answer; `abspath` is `os.path.abspath(path)`. -/
def get_filepaths_nonrecursive (abspath : String) (entries : List (String × Bool)) :
    List (String × String) :=
  (entries.filter (fun e => e.2 && keepName e.1)).map (fun e => (abspath, e.1))

/-- The recursive branch of `get_filepaths`.  Its filesystem input is the
`os.walk` sequence, modelled as (absolute dirpath, filenames) pairs (the
unused `dirnames` component is omitted). -/
def get_filepaths_recursive (walk : List (String × List String)) :
    List (String × String) :=
  (walk.map (fun d => (d.2.filter keepName).map (fun f => (d.1, f)))).flatten

/-! ## POSIX timestamps -/

/-- Days since 1970-01-01 of a Gregorian civil date with `1 ≤ y` (Howard
Hinnant's civil-from-days algorithm, specialised to nonnegative shifted
years). -/
def daysFromCivil (y m d : Nat) : Int :=
  let y' := y - (if m ≤ 2 then 1 else 0)
  let era := y' / 400
  let yoe := y' % 400
  let doy := (153 * (if 2 < m then m - 3 else m + 9) + 2) / 5 + (d - 1)
  let doe := yoe * 365 + yoe / 4 - yoe / 100 + doy
  ((era * 146097 + doe : Nat) : Int) - 719468

/-- Model of `datetime.timestamp()` on the naive datetimes this program
builds: the POSIX epoch value, taking the process timezone to be UTC
(`timestamp()` interprets a naive datetime in local time; the offset is a
constant of the environment and does not affect any property proved here). -/
def timestamp (dt : DateTime) : Int :=
  daysFromCivil dt.year dt.month dt.day * 86400
    + (dt.hour * 3600 + dt.minute * 60 + dt.second : Nat)

/-! ## The piexif / file model

`piexif.load` can return an exif dictionary, raise
`piexif.InvalidImageDataError` (structurally unreadable image), or raise
`ValueError` (malformed exif container).  `piexif.dump` of a loaded
dictionary can itself raise `ValueError` for malformed tag values; this
possibility is carried as a field of the abstract dictionary.
`piexif.insert(bytes, path)` replaces the file's exif segment with the
dumped dictionary, leaving the rest of the file (`raw`) unchanged. -/

/-- Abstract exif dictionary: the `DateTimeOriginal` tag of the `Exif` IFD,
an opaque summary of every other tag (`rest`), and whether dumping the
dictionary (with the tag updated) raises `ValueError`. -/
structure ExifDict where
  dateTimeOriginal : Option String
  rest : Nat
  dumpRaises : Bool
deriving DecidableEq

/-- Abstract image file content, as observed through `piexif.load`. -/
inductive ImageBytes where
  /-- `piexif.load` raises `InvalidImageDataError`. -/
  | invalid (raw : Nat)
  /-- `piexif.load` raises `ValueError` (malformed exif container). -/
  | malformed (raw : Nat)
  /-- `piexif.load` returns the dictionary `d`. -/
  | wellFormed (d : ExifDict) (raw : Nat)
deriving DecidableEq

/-- The non-exif content of the file, preserved by `piexif.insert`. -/
def rawOf : ImageBytes → Nat
  | .invalid r => r
  | .malformed r => r
  | .wellFormed _ r => r

/-- One file of the target directory: name, image content, and filesystem
times (`os.utime(filepath, (atime, mtime))` sets both). -/
structure FSFile where
  name : String
  img : ImageBytes
  mtime : Int
  atime : Int
deriving DecidableEq

/-- The Python local variable `exif_bytes` of `main`'s loop body.  It is
assigned only on line 116 and read on line 123; being a function-scoped
local, a value assigned in an earlier iteration is still visible in later
ones. -/
inductive ExifBytesVar where
  | unbound
  | bound (d : ExifDict)
deriving DecidableEq

/-- Unhandled Python exceptions that escape `main`'s loop body. -/
inductive PyError where
  /-- `NameError`: line 123 reads `exif_bytes` though it was never assigned. -/
  | nameErrorExifBytes
  /-- `ValueError` from `strptime` at a point where it is not caught. -/
  | valueErrorStrptime
deriving DecidableEq

/-- Per-file outcome, mirroring the log lines of `main` (plus
`staleExifWritten` for the write performed with a previous iteration's
`exif_bytes`). -/
inductive Outcome where
  | skippedNotVid
  | skippedNotImg
  | skippedTagged
  | skippedInvalidData
  | vidTimesSet
  | tagged
  | staleExifWritten
  | noBranch
deriving DecidableEq

/-- Result of one iteration of `main`'s loop: either the loop continues
(`continue` or normal fall-through), or an exception aborts the batch. -/
inductive StepResult where
  | ok (o : Outcome) (f : FSFile) (v : ExifBytesVar)
  | crash (e : PyError) (f : FSFile) (v : ExifBytesVar)
deriving DecidableEq

/-- Python truthiness of `exif_dict['Exif'].get(DateTimeOriginal)`: absent
(`None`) and the empty value are falsy, any other value truthy. -/
def truthy : Option String → Bool
  | none => false
  | some s => s ≠ ""

/-- Source `make_new_exif`: `piexif.dump({'Exif': {DateTimeOriginal:
get_exif_datestr(filename)}})` — a fresh minimal dictionary holding only the
capture-date tag (such a dictionary always dumps successfully).  `none`
models the `ValueError` propagating out of `get_exif_datestr`. -/
def make_new_exif (filename : String) : Option ExifDict :=
  (get_exif_datestr filename).map
    (fun s => { dateTimeOriginal := some s, rest := 0, dumpRaises := false })

/-- Lines 124-127 of `main`: after `piexif.insert`, when `mod` is set, parse
the timestamp again and set both file times (`strptime` cannot be reached
here with an invalid date when the tag write succeeded, but the model keeps
the raise path for faithfulness). -/
def afterInsert (mod : Bool) (o : Outcome) (f : FSFile) (v : ExifBytesVar) : StepResult :=
  if mod then
    match get_datetime f.name with
    | none => .crash .valueErrorStrptime f v
    | some dt => .ok o { f with mtime := timestamp dt, atime := timestamp dt } v
  else .ok o f v

/-- Lines 120-123 of `main`: the `except ValueError` handler.  It calls
`make_new_exif(filename)` but DISCARDS the result (the source never assigns
it), then proceeds to `piexif.insert(exif_bytes, filepath)`: if `exif_bytes`
was never assigned this raises `NameError`; otherwise it writes the stale
bytes of an earlier iteration.  If `make_new_exif` itself raises
`ValueError` (unparseable date inside the handler), that exception
propagates. -/
def handleValueError (mod : Bool) (f : FSFile) (v : ExifBytesVar) : StepResult :=
  match make_new_exif f.name with
  | none => .crash .valueErrorStrptime f v
  | some _ =>
    match v with
    | .unbound => .crash .nameErrorExifBytes f v
    | .bound d =>
      afterInsert mod .staleExifWritten { f with img := .wellFormed d (rawOf f.img) } v

/-- Lines 95-127 of `main`: one iteration of the per-file loop. -/
def processFile (mod : Bool) (f : FSFile) (v : ExifBytesVar) : StepResult :=
  if strEndsWith f.name ".mp4" || strEndsWith f.name ".3gp" then
    if !(is_whatsapp_vid f.name) then .ok .skippedNotVid f v
    else
      match get_datetime f.name with
      | none => .crash .valueErrorStrptime f v
      | some dt => .ok .vidTimesSet { f with mtime := timestamp dt, atime := timestamp dt } v
  else if strEndsWith f.name ".jpg" || strEndsWith f.name ".jpeg" then
    if !(is_whatsapp_img f.name) then .ok .skippedNotImg f v
    else
      match f.img with
      | .invalid _ => .ok .skippedInvalidData f v
      | .malformed _ => handleValueError mod f v
      | .wellFormed d raw =>
        if truthy d.dateTimeOriginal then .ok .skippedTagged f v
        else
          match get_exif_datestr f.name with
          | none => handleValueError mod f v
          | some ds =>
            if d.dumpRaises then handleValueError mod f v
            else
              afterInsert mod .tagged
                { f with img := .wellFormed { d with dateTimeOriginal := some ds } raw }
                (.bound { d with dateTimeOriginal := some ds })
  else .ok .noBranch f v

/-- Result of the whole batch: either every file was processed, or an
unhandled exception aborted it, leaving the already-processed prefix in its
new state and the rest untouched. -/
inductive BatchResult where
  | finished (files : List FSFile)
  | aborted (e : PyError) (done : List FSFile) (cur : FSFile) (rest : List FSFile)
deriving DecidableEq

/-- The processing loop of `main` over the included files, threading the
`exif_bytes` local across iterations. -/
def runBatchAux (mod : Bool) (v : ExifBytesVar) (acc : List FSFile) :
    List FSFile → BatchResult
  | [] => .finished acc.reverse
  | f :: rest =>
    match processFile mod f v with
    | .ok _ f' v' => runBatchAux mod v' (f' :: acc) rest
    | .crash e f' _ => .aborted e acc.reverse f' rest

/-- The batch as started by `main`: `exif_bytes` initially unbound. -/
def runBatch (mod : Bool) (files : List FSFile) : BatchResult :=
  runBatchAux mod .unbound [] files

/-! ## Lemmas: digit rendering -/

theorem isSep_digitChar : ∀ d < 10, isSep (digitChar d) = false := by decide

theorem isDigit_digitChar : ∀ d < 10, (digitChar d).isDigit = true := by decide

theorem digitVal_digitChar : ∀ d < 10, digitVal (digitChar d) = d := by decide

theorem padDigits_length (w n : Nat) : (padDigits w n).length = w := by
  induction w generalizing n with
  | zero => rfl
  | succ w ih => simp [padDigits, ih]

theorem isSep_of_mem_padDigits {w n : Nat} {c : Char} (hc : c ∈ padDigits w n) :
    isSep c = false := by
  induction w generalizing n with
  | zero => simp [padDigits] at hc
  | succ w ih =>
    simp only [padDigits, List.mem_append, List.mem_singleton] at hc
    rcases hc with h | h
    · exact ih h
    · subst h; exact isSep_digitChar _ (Nat.mod_lt _ (by omega))

theorem isDigit_of_mem_padDigits {w n : Nat} {c : Char} (hc : c ∈ padDigits w n) :
    c.isDigit = true := by
  induction w generalizing n with
  | zero => simp [padDigits] at hc
  | succ w ih =>
    simp only [padDigits, List.mem_append, List.mem_singleton] at hc
    rcases hc with h | h
    · exact ih h
    · subst h; exact isDigit_digitChar _ (Nat.mod_lt _ (by omega))

theorem natOfDigitsAcc_nil (acc : Nat) : natOfDigitsAcc acc [] = acc := rfl

theorem natOfDigitsAcc_cons (acc : Nat) (c : Char) (cs : List Char) :
    natOfDigitsAcc acc (c :: cs) = natOfDigitsAcc (acc * 10 + digitVal c) cs := rfl

theorem padDigits_zero (n : Nat) : padDigits 0 n = [] := rfl

theorem padDigits_succ (w n : Nat) :
    padDigits (w + 1) n = padDigits w (n / 10) ++ [digitChar (n % 10)] := rfl

theorem natOfDigitsAcc_append (acc : Nat) (xs ys : List Char) :
    natOfDigitsAcc acc (xs ++ ys) = natOfDigitsAcc (natOfDigitsAcc acc xs) ys := by
  induction xs generalizing acc with
  | nil => rfl
  | cons c cs ih =>
    rw [List.cons_append, natOfDigitsAcc_cons, natOfDigitsAcc_cons]
    exact ih (acc * 10 + digitVal c)

theorem natOfDigitsAcc_padDigits (w : Nat) :
    ∀ n acc, natOfDigitsAcc acc (padDigits w n) = acc * 10 ^ w + n % 10 ^ w := by
  induction w with
  | zero =>
    intro n acc
    rw [padDigits_zero, natOfDigitsAcc_nil]
    omega
  | succ w ih =>
    intro n acc
    rw [padDigits_succ, natOfDigitsAcc_append, ih, natOfDigitsAcc_cons, natOfDigitsAcc_nil,
      digitVal_digitChar (n % 10) (Nat.mod_lt n (by omega)),
      Nat.pow_succ, Nat.mul_comm (10 ^ w) 10, Nat.mod_mul]
    ring

theorem natOfDigits_padDigits {w n : Nat} (h : n < 10 ^ w) :
    natOfDigits (padDigits w n) = n := by
  unfold natOfDigits
  rw [natOfDigitsAcc_padDigits]
  simp [Nat.mod_eq_of_lt h]

theorem yearChars_of_ge_1000 {n : Nat} (h : 1000 ≤ n) : yearChars n = padDigits 4 n := by
  unfold yearChars
  rw [if_neg (by omega), if_neg (by omega), if_neg (by omega)]

/-! ## Lemmas: splitting and pattern consumption -/

theorem splitSep_append_sep {xs : List Char} (hxs : ∀ c ∈ xs, isSep c = false)
    {s : Char} (hs : isSep s = true) (ys : List Char) :
    splitSep (xs ++ s :: ys) = xs :: splitSep ys := by
  induction xs with
  | nil => simp [splitSep, hs]
  | cons a as ih =>
    have ha : isSep a = false := hxs a (by simp)
    have ih' := ih (fun c hc => hxs c (by simp [hc]))
    rw [List.cons_append]
    simp only [splitSep, ha, Bool.false_eq_true, if_false]
    rw [ih']

theorem consumeDigits_append {n : Nat} {xs : List Char} (ys : List Char)
    (hlen : xs.length = n) (hdig : ∀ c ∈ xs, c.isDigit = true) :
    consumeDigits n (xs ++ ys) = some ys := by
  induction n generalizing xs with
  | zero =>
    rw [List.length_eq_zero] at hlen
    subst hlen
    rfl
  | succ n ih =>
    cases xs with
    | nil => simp at hlen
    | cons c cs =>
      have hc : c.isDigit = true := hdig c (by simp)
      rw [List.cons_append]
      simp only [consumeDigits, hc, if_true]
      exact ih (by simpa using hlen) (fun c hc => hdig c (by simp [hc]))

theorem consumeLit_append (ls rest : List Char) : consumeLit ls (ls ++ rest) = some rest := by
  induction ls with
  | nil => rfl
  | cons l ls ih => simp [consumeLit, ih]

theorem consumeDateFields_construct (y mo dd hh mi ss : Nat) (rest : List Char) :
    consumeDateFields
        (padDigits 4 y ++ '-' :: (padDigits 2 mo ++ '-' :: (padDigits 2 dd
          ++ '-' :: (padDigits 2 hh ++ '-' :: (padDigits 2 mi ++ '-' :: (padDigits 2 ss
          ++ rest)))))) = some rest := by
  unfold consumeDateFields
  rw [consumeDigits_append _ (padDigits_length 4 y)
      (fun c hc => isDigit_of_mem_padDigits hc)]
  simp only [Option.some_bind]
  rw [show ('-' :: (padDigits 2 mo ++ '-' :: (padDigits 2 dd ++ '-' :: (padDigits 2 hh
        ++ '-' :: (padDigits 2 mi ++ '-' :: (padDigits 2 ss ++ rest))))))
      = ['-'] ++ (padDigits 2 mo ++ '-' :: (padDigits 2 dd ++ '-' :: (padDigits 2 hh
        ++ '-' :: (padDigits 2 mi ++ '-' :: (padDigits 2 ss ++ rest))))) from rfl,
    consumeLit_append]
  simp only [Option.some_bind]
  rw [consumeDigits_append _ (padDigits_length 2 mo)
      (fun c hc => isDigit_of_mem_padDigits hc)]
  simp only [Option.some_bind]
  rw [show ('-' :: (padDigits 2 dd ++ '-' :: (padDigits 2 hh
        ++ '-' :: (padDigits 2 mi ++ '-' :: (padDigits 2 ss ++ rest)))))
      = ['-'] ++ (padDigits 2 dd ++ '-' :: (padDigits 2 hh
        ++ '-' :: (padDigits 2 mi ++ '-' :: (padDigits 2 ss ++ rest)))) from rfl,
    consumeLit_append]
  simp only [Option.some_bind]
  rw [consumeDigits_append _ (padDigits_length 2 dd)
      (fun c hc => isDigit_of_mem_padDigits hc)]
  simp only [Option.some_bind]
  rw [show ('-' :: (padDigits 2 hh ++ '-' :: (padDigits 2 mi ++ '-' :: (padDigits 2 ss
        ++ rest))))
      = ['-'] ++ (padDigits 2 hh ++ '-' :: (padDigits 2 mi ++ '-' :: (padDigits 2 ss
        ++ rest))) from rfl,
    consumeLit_append]
  simp only [Option.some_bind]
  rw [consumeDigits_append _ (padDigits_length 2 hh)
      (fun c hc => isDigit_of_mem_padDigits hc)]
  simp only [Option.some_bind]
  rw [show ('-' :: (padDigits 2 mi ++ '-' :: (padDigits 2 ss ++ rest)))
      = ['-'] ++ (padDigits 2 mi ++ '-' :: (padDigits 2 ss ++ rest)) from rfl,
    consumeLit_append]
  simp only [Option.some_bind]
  rw [consumeDigits_append _ (padDigits_length 2 mi)
      (fun c hc => isDigit_of_mem_padDigits hc)]
  simp only [Option.some_bind]
  rw [show ('-' :: (padDigits 2 ss ++ rest)) = ['-'] ++ (padDigits 2 ss ++ rest) from rfl,
    consumeLit_append]
  simp only [Option.some_bind]
  rw [consumeDigits_append _ (padDigits_length 2 ss)
      (fun c hc => isDigit_of_mem_padDigits hc)]

/-! ## Lemmas: strings and extensions -/

theorem strMk_data (l : List Char) : (String.mk l).data = l := rfl

theorem strData_append (a b : String) : (a ++ b).data = a.data ++ b.data := rfl

theorem strMk_length (l : List Char) : (String.mk l).length = l.length := rfl

theorem strEndsWith_iff (s t : String) :
    strEndsWith s t = true
      ↔ t.data.length ≤ s.data.length
        ∧ s.data.drop (s.data.length - t.data.length) = t.data := by
  unfold strEndsWith
  simp [Bool.and_eq_true, decide_eq_true_eq, beq_iff_eq]

theorem drop_last4_of_img (s : String)
    (h : (strEndsWith s ".jpg" || strEndsWith s ".jpeg") = true) :
    s.data.drop (s.data.length - 4) = ['.', 'j', 'p', 'g']
      ∨ s.data.drop (s.data.length - 4) = ['j', 'p', 'e', 'g'] := by
  rcases Bool.or_eq_true_iff.mp h with h1 | h1
  · left
    have h2 := (strEndsWith_iff s ".jpg").mp h1
    rw [show (".jpg" : String).data.length = 4 from rfl,
      show (".jpg" : String).data = ['.', 'j', 'p', 'g'] from rfl] at h2
    exact h2.2
  · right
    have h2 := (strEndsWith_iff s ".jpeg").mp h1
    rw [show (".jpeg" : String).data.length = 5 from rfl,
      show (".jpeg" : String).data = ['.', 'j', 'p', 'e', 'g'] from rfl] at h2
    have hlen : 5 ≤ s.data.length := h2.1
    have e : s.data.drop (s.data.length - 4)
        = List.drop 1 (s.data.drop (s.data.length - 5)) := by
      rw [List.drop_drop]
      congr 1
      omega
    rw [e, h2.2]
    rfl

theorem ends_img_not_vid (s : String)
    (h : (strEndsWith s ".jpg" || strEndsWith s ".jpeg") = true) :
    (strEndsWith s ".mp4" || strEndsWith s ".3gp") = false := by
  have h4 := drop_last4_of_img s h
  cases hmp4 : strEndsWith s ".mp4" with
  | true =>
    exfalso
    have h2 := ((strEndsWith_iff s ".mp4").mp hmp4).2
    rw [show (".mp4" : String).data.length = 4 from rfl,
      show (".mp4" : String).data = ['.', 'm', 'p', '4'] from rfl] at h2
    rcases h4 with h4 | h4 <;> rw [h4] at h2 <;> exact absurd h2 (by decide)
  | false =>
    cases h3gp : strEndsWith s ".3gp" with
    | true =>
      exfalso
      have h2 := ((strEndsWith_iff s ".3gp").mp h3gp).2
      rw [show (".3gp" : String).data.length = 4 from rfl,
        show (".3gp" : String).data = ['.', '3', 'g', 'p'] from rfl] at h2
      rcases h4 with h4 | h4 <;> rw [h4] at h2 <;> exact absurd h2 (by decide)
    | false => rfl

/-! ## Lemmas: timestamp validity and formatting -/

theorem daysInMonth_le_31 (y m : Nat) : daysInMonth y m ≤ 31 := by
  unfold daysInMonth
  split
  · split <;> omega
  · split <;> omega

theorem validDateTime_bounds {y mo d h mi s : Nat}
    (hv : validDateTime y mo d h mi s = true) :
    1 ≤ y ∧ y ≤ 9999 ∧ mo ≤ 99 ∧ d ≤ 99 ∧ h ≤ 99 ∧ mi ≤ 99 ∧ s ≤ 99 := by
  unfold validDateTime at hv
  simp only [Bool.and_eq_true, decide_eq_true_eq] at hv
  have := daysInMonth_le_31 y mo
  omega

theorem padDigits_ne_nil (w n : Nat) : padDigits (w + 1) n ≠ [] := by
  intro h
  have h2 := padDigits_length (w + 1) n
  rw [h] at h2
  simp at h2

theorem yearChars_length_pos (n : Nat) : 1 ≤ (yearChars n).length := by
  unfold yearChars
  split
  · rw [padDigits_length]
  · split
    · rw [padDigits_length]; omega
    · split <;> rw [padDigits_length] <;> omega

theorem padStr_length (w n : Nat) : (padStr w n).length = w := by
  rw [padStr, strMk_length, padDigits_length]

theorem fmtDT_ne_empty (dt : DateTime) : fmtDT dt ≠ "" := by
  intro h
  have h0 : (fmtDT dt).length = 0 := by rw [h]; rfl
  unfold fmtDT at h0
  simp only [String.length_append, strMk_length, padStr_length] at h0
  have h1 := yearChars_length_pos dt.year
  have h2 : (":" : String).length = 1 := rfl
  have h3 : (" " : String).length = 1 := rfl
  omega

theorem truthy_fmtDT (dt : DateTime) : truthy (some (fmtDT dt)) = true := by
  simp only [truthy, decide_eq_true_eq]
  exact fmtDT_ne_empty dt

/-! ## Lemmas: parsing a structurally built WhatsApp filename -/

theorem strptime_concat (l1 l2 l3 l4 l5 l6 : List Char)
    (h1 : l1.length = 4) (h2 : l2.length = 2) (h3 : l3.length = 2)
    (h4 : l4.length = 2) (h5 : l5.length = 2) (h6 : l6.length = 2)
    (hd : (l1 ++ (l2 ++ (l3 ++ (l4 ++ (l5 ++ l6))))).all Char.isDigit = true) :
    strptimeYmdHMS (l1 ++ (l2 ++ (l3 ++ (l4 ++ (l5 ++ l6)))))
      = if validDateTime (natOfDigits l1) (natOfDigits l2) (natOfDigits l3)
            (natOfDigits l4) (natOfDigits l5) (natOfDigits l6) then
          some (DateTime.mk (natOfDigits l1) (natOfDigits l2) (natOfDigits l3)
            (natOfDigits l4) (natOfDigits l5) (natOfDigits l6))
        else none := by
  have hlen : (l1 ++ (l2 ++ (l3 ++ (l4 ++ (l5 ++ l6))))).length = 14 := by
    simp [List.length_append, h1, h2, h3, h4, h5, h6]
  have ht4 : (l1 ++ (l2 ++ (l3 ++ (l4 ++ (l5 ++ l6))))).take 4 = l1 :=
    List.take_left' h1
  have hd4 : (l1 ++ (l2 ++ (l3 ++ (l4 ++ (l5 ++ l6))))).drop 4
      = l2 ++ (l3 ++ (l4 ++ (l5 ++ l6))) := List.drop_left' h1
  have hd6 : (l1 ++ (l2 ++ (l3 ++ (l4 ++ (l5 ++ l6))))).drop 6
      = l3 ++ (l4 ++ (l5 ++ l6)) := by
    rw [show l1 ++ (l2 ++ (l3 ++ (l4 ++ (l5 ++ l6))))
        = (l1 ++ l2) ++ (l3 ++ (l4 ++ (l5 ++ l6))) by rw [List.append_assoc]]
    exact List.drop_left' (by simp [List.length_append, h1, h2])
  have hd8 : (l1 ++ (l2 ++ (l3 ++ (l4 ++ (l5 ++ l6))))).drop 8
      = l4 ++ (l5 ++ l6) := by
    rw [show l1 ++ (l2 ++ (l3 ++ (l4 ++ (l5 ++ l6))))
        = ((l1 ++ l2) ++ l3) ++ (l4 ++ (l5 ++ l6)) by simp [List.append_assoc]]
    exact List.drop_left' (by simp [List.length_append, h1, h2, h3])
  have hd10 : (l1 ++ (l2 ++ (l3 ++ (l4 ++ (l5 ++ l6))))).drop 10
      = l5 ++ l6 := by
    rw [show l1 ++ (l2 ++ (l3 ++ (l4 ++ (l5 ++ l6))))
        = (((l1 ++ l2) ++ l3) ++ l4) ++ (l5 ++ l6) by simp [List.append_assoc]]
    exact List.drop_left' (by simp [List.length_append, h1, h2, h3, h4])
  have hd12 : (l1 ++ (l2 ++ (l3 ++ (l4 ++ (l5 ++ l6))))).drop 12 = l6 := by
    rw [show l1 ++ (l2 ++ (l3 ++ (l4 ++ (l5 ++ l6))))
        = ((((l1 ++ l2) ++ l3) ++ l4) ++ l5) ++ l6 by simp [List.append_assoc]]
    exact List.drop_left' (by simp [List.length_append, h1, h2, h3, h4, h5])
  unfold strptimeYmdHMS
  rw [if_pos (by simp [hlen, hd])]
  have ht6 : List.take 2 l6 = l6 := by rw [← h6]; exact List.take_length l6
  rw [ht4, hd4, hd6, hd8, hd10, hd12,
    List.take_left' h2, List.take_left' h3, List.take_left' h4, List.take_left' h5, ht6]

theorem get_datetime_construct (tag : String) (htag : ∀ c ∈ tag.data, isSep c = false)
    (seq y mo dd hh mi ss : Nat) (ext : List Char) (fn : String)
    (hfn : fn.data = padDigits 8 seq ++ '-' :: (tag.data ++ '-' :: (padDigits 4 y
      ++ '-' :: (padDigits 2 mo ++ '-' :: (padDigits 2 dd ++ '-' :: (padDigits 2 hh
      ++ '-' :: (padDigits 2 mi ++ '-' :: (padDigits 2 ss ++ '.' :: ext))))))))
    (hval : validDateTime y mo dd hh mi ss = true) :
    get_datetime fn = some (DateTime.mk y mo dd hh mi ss) := by
  obtain ⟨hy1, hy, hmo, hdd, hhh, hmi, hss⟩ := validDateTime_bounds hval
  unfold get_datetime
  rw [hfn]
  rw [splitSep_append_sep (fun c hc => isSep_of_mem_padDigits hc) (by decide),
    splitSep_append_sep htag (by decide),
    splitSep_append_sep (fun c hc => isSep_of_mem_padDigits hc) (by decide),
    splitSep_append_sep (fun c hc => isSep_of_mem_padDigits hc) (by decide),
    splitSep_append_sep (fun c hc => isSep_of_mem_padDigits hc) (by decide),
    splitSep_append_sep (fun c hc => isSep_of_mem_padDigits hc) (by decide),
    splitSep_append_sep (fun c hc => isSep_of_mem_padDigits hc) (by decide),
    splitSep_append_sep (fun c hc => isSep_of_mem_padDigits hc) (by decide)]
  simp only [List.drop_succ_cons, List.drop_zero, List.take_succ_cons, List.take_zero,
    List.flatten_cons, List.flatten_nil, List.append_nil]
  have hall : (padDigits 4 y ++ (padDigits 2 mo ++ (padDigits 2 dd ++ (padDigits 2 hh
      ++ (padDigits 2 mi ++ padDigits 2 ss))))).all Char.isDigit = true := by
    rw [List.all_eq_true]
    intro c hc
    simp only [List.mem_append] at hc
    rcases hc with hc | hc | hc | hc | hc | hc <;> exact isDigit_of_mem_padDigits hc
  rw [strptime_concat _ _ _ _ _ _ (padDigits_length 4 y) (padDigits_length 2 mo)
    (padDigits_length 2 dd) (padDigits_length 2 hh) (padDigits_length 2 mi)
    (padDigits_length 2 ss) hall]
  have e4 : (10 : Nat) ^ 4 = 10000 := by norm_num
  have e2 : (10 : Nat) ^ 2 = 100 := by norm_num
  rw [natOfDigits_padDigits (show y < 10 ^ 4 by omega),
    natOfDigits_padDigits (show mo < 10 ^ 2 by omega),
    natOfDigits_padDigits (show dd < 10 ^ 2 by omega),
    natOfDigits_padDigits (show hh < 10 ^ 2 by omega),
    natOfDigits_padDigits (show mi < 10 ^ 2 by omega),
    natOfDigits_padDigits (show ss < 10 ^ 2 by omega)]
  rw [if_pos hval]

theorem consumeLit_dash (td R : List Char) :
    consumeLit ('-' :: (td ++ ['-'])) ('-' :: (td ++ '-' :: R)) = some R := by
  have e : '-' :: (td ++ '-' :: R) = ('-' :: (td ++ ['-'])) ++ R := by simp
  rw [e, consumeLit_append]

theorem matchMediaPattern_construct (tag : String) (seq y mo dd hh mi ss : Nat)
    (c0 : Char) (ext : List Char) (hc0 : (c0 != '\n') = true) (fn : String)
    (hfn : fn.data = padDigits 8 seq ++ '-' :: (tag.data ++ '-' :: (padDigits 4 y
      ++ '-' :: (padDigits 2 mo ++ '-' :: (padDigits 2 dd ++ '-' :: (padDigits 2 hh
      ++ '-' :: (padDigits 2 mi ++ '-' :: (padDigits 2 ss ++ '.' :: c0 :: ext)))))))) :
    matchMediaPattern tag fn = true := by
  unfold matchMediaPattern
  rw [hfn]
  rw [consumeDigits_append _ (padDigits_length 8 seq)
    (fun c hc => isDigit_of_mem_padDigits hc)]
  simp only [Option.some_bind]
  rw [consumeLit_dash]
  simp only [Option.some_bind]
  rw [consumeDateFields_construct]
  simp [consumeLit, hc0]

/-! ## Claim C2 -/

/-- C2, counterexample.  The claim quantifies over every filename matching the
strict WhatsApp pattern, but the pattern only constrains digit counts, not
calendar validity: `00000001-PHOTO-2021-13-01-01-01-01.jpg` matches the image
pattern yet the parser raises (`none`) instead of returning the encoded
fields (month 13).  Moreover for a matching filename with year field `0021`
the parse succeeds but the tag is rendered with an unpadded two-digit year,
not as `YYYY:MM:DD HH:MM:SS`. -/
theorem c2_counterexample :
    (is_whatsapp_img "00000001-PHOTO-2021-13-01-01-01-01.jpg" = true
      ∧ get_datetime "00000001-PHOTO-2021-13-01-01-01-01.jpg" = none)
    ∧ (is_whatsapp_img "00000001-PHOTO-0021-04-12-18-24-22.jpg" = true
      ∧ get_exif_datestr "00000001-PHOTO-0021-04-12-18-24-22.jpg"
          = some "21:04:12 18:24:22") := by decide

/-- C2 (amended): for every filename of the strict WhatsApp image or video
shape whose six date tokens form a calendar-valid timestamp with a four-digit
year of value at least 1000, the parser deterministically returns exactly the
encoded year/month/day/hour/minute/second, and the produced tag string is
that timestamp rendered as `YYYY:MM:DD HH:MM:SS`; the filename also matches
the corresponding pattern predicate. -/
theorem c2_parser_roundtrip (tag ext fn : String) (seq y mo dd hh mi ss : Nat)
    (hfn : fn = padStr 8 seq ++ "-" ++ tag ++ "-" ++ padStr 4 y ++ "-" ++ padStr 2 mo
      ++ "-" ++ padStr 2 dd ++ "-" ++ padStr 2 hh ++ "-" ++ padStr 2 mi ++ "-"
      ++ padStr 2 ss ++ "." ++ ext)
    (htag : tag = "PHOTO" ∨ tag = "VIDEO")
    (hval : validDateTime y mo dd hh mi ss = true)
    (hy1000 : 1000 ≤ y)
    (hext : ∃ c cs, ext.data = c :: cs ∧ c ≠ '\n') :
    (tag = "PHOTO" → is_whatsapp_img fn = true)
    ∧ (tag = "VIDEO" → is_whatsapp_vid fn = true)
    ∧ get_datetime fn = some (DateTime.mk y mo dd hh mi ss)
    ∧ get_exif_datestr fn
        = some (padStr 4 y ++ ":" ++ padStr 2 mo ++ ":" ++ padStr 2 dd ++ " "
            ++ padStr 2 hh ++ ":" ++ padStr 2 mi ++ ":" ++ padStr 2 ss) := by
  subst hfn
  obtain ⟨c0, cs0, hc0, hc0n⟩ := hext
  have hdash : ("-" : String).data = ['-'] := rfl
  have hdot : ("." : String).data = ['.'] := rfl
  have hdata : (padStr 8 seq ++ "-" ++ tag ++ "-" ++ padStr 4 y ++ "-" ++ padStr 2 mo
      ++ "-" ++ padStr 2 dd ++ "-" ++ padStr 2 hh ++ "-" ++ padStr 2 mi ++ "-"
      ++ padStr 2 ss ++ "." ++ ext).data
      = padDigits 8 seq ++ '-' :: (tag.data ++ '-' :: (padDigits 4 y
        ++ '-' :: (padDigits 2 mo ++ '-' :: (padDigits 2 dd ++ '-' :: (padDigits 2 hh
        ++ '-' :: (padDigits 2 mi ++ '-' :: (padDigits 2 ss ++ '.' :: ext.data))))))) := by
    simp only [strData_append, padStr, strMk_data, hdash, hdot, List.append_assoc,
      List.singleton_append, List.cons_append, List.nil_append]
  have hdata2 : (padStr 8 seq ++ "-" ++ tag ++ "-" ++ padStr 4 y ++ "-" ++ padStr 2 mo
      ++ "-" ++ padStr 2 dd ++ "-" ++ padStr 2 hh ++ "-" ++ padStr 2 mi ++ "-"
      ++ padStr 2 ss ++ "." ++ ext).data
      = padDigits 8 seq ++ '-' :: (tag.data ++ '-' :: (padDigits 4 y
        ++ '-' :: (padDigits 2 mo ++ '-' :: (padDigits 2 dd ++ '-' :: (padDigits 2 hh
        ++ '-' :: (padDigits 2 mi ++ '-' :: (padDigits 2 ss ++ '.' :: c0 :: cs0))))))) := by
    rw [hdata, hc0]
  have htagsep : ∀ c ∈ tag.data, isSep c = false := by
    rcases htag with h | h <;> subst h <;> decide
  have hgd := get_datetime_construct tag htagsep seq y mo dd hh mi ss ext.data _ hdata hval
  refine ⟨?_, ?_, hgd, ?_⟩
  · intro ht
    subst ht
    exact matchMediaPattern_construct "PHOTO" seq y mo dd hh mi ss c0 cs0
      (by simp [bne_iff_ne, hc0n]) _ hdata2
  · intro ht
    subst ht
    exact matchMediaPattern_construct "VIDEO" seq y mo dd hh mi ss c0 cs0
      (by simp [bne_iff_ne, hc0n]) _ hdata2
  · have hmap : get_exif_datestr (padStr 8 seq ++ "-" ++ tag ++ "-" ++ padStr 4 y ++ "-"
        ++ padStr 2 mo ++ "-" ++ padStr 2 dd ++ "-" ++ padStr 2 hh ++ "-" ++ padStr 2 mi
        ++ "-" ++ padStr 2 ss ++ "." ++ ext)
        = some (fmtDT (DateTime.mk y mo dd hh mi ss)) := by
      rw [get_exif_datestr, hgd]
      rfl
    rw [hmap]
    unfold fmtDT
    simp only
    rw [yearChars_of_ge_1000 hy1000]
    rfl

/-- Witness for C2 at Scenario A: `00000015-PHOTO-2021-04-12-18-24-22.jpg`
yields timestamp 2021-04-12 18:24:22 and tag `2021:04:12 18:24:22`. -/
theorem c2_witness :
    is_whatsapp_img "00000015-PHOTO-2021-04-12-18-24-22.jpg" = true
    ∧ get_datetime "00000015-PHOTO-2021-04-12-18-24-22.jpg"
        = some (DateTime.mk 2021 4 12 18 24 22)
    ∧ get_exif_datestr "00000015-PHOTO-2021-04-12-18-24-22.jpg"
        = some "2021:04:12 18:24:22" := by
  have h := c2_parser_roundtrip "PHOTO" "jpg" "00000015-PHOTO-2021-04-12-18-24-22.jpg"
    15 2021 4 12 18 24 22 (by decide) (Or.inl rfl) (by decide) (by decide)
    ⟨'j', ['p', 'g'], by decide, by decide⟩
  refine ⟨h.1 rfl, h.2.2.1, ?_⟩
  rw [h.2.2.2]
  decide

/-! ## Lemmas: the per-file step on image files -/

theorem processFile_skip_tagged (mod : Bool) (v : ExifBytesVar) (f : FSFile)
    (hext : (strEndsWith f.name ".jpg" || strEndsWith f.name ".jpeg") = true)
    (hmatch : is_whatsapp_img f.name = true)
    (d : ExifDict) (raw : Nat) (himg : f.img = .wellFormed d raw)
    (htr : truthy d.dateTimeOriginal = true) :
    processFile mod f v = .ok .skippedTagged f v := by
  have hvid := ends_img_not_vid f.name hext
  simp [processFile, hvid, hext, hmatch, himg, htr]

theorem processFile_tag_success (mod : Bool) (v : ExifBytesVar) (f : FSFile)
    (hext : (strEndsWith f.name ".jpg" || strEndsWith f.name ".jpeg") = true)
    (hmatch : is_whatsapp_img f.name = true)
    (d : ExifDict) (raw : Nat) (himg : f.img = .wellFormed d raw)
    (htr : truthy d.dateTimeOriginal = false)
    (hdump : d.dumpRaises = false)
    (dt : DateTime) (hdt : get_datetime f.name = some dt) :
    processFile mod f v
      = .ok .tagged
          (if mod then
            { f with img := .wellFormed { d with dateTimeOriginal := some (fmtDT dt) } raw,
                     mtime := timestamp dt, atime := timestamp dt }
           else
            { f with img := .wellFormed { d with dateTimeOriginal := some (fmtDT dt) } raw })
          (.bound { d with dateTimeOriginal := some (fmtDT dt) }) := by
  have hvid := ends_img_not_vid f.name hext
  have hds : get_exif_datestr f.name = some (fmtDT dt) := by
    rw [get_exif_datestr, hdt]
    rfl
  cases mod with
  | false => simp [processFile, hvid, hext, hmatch, himg, htr, hds, hdump, afterInsert]
  | true => simp [processFile, hvid, hext, hmatch, himg, htr, hds, hdump, afterInsert, hdt]

/-! ## Claim C1 -/

/-- C1 (code defect, evaluated): for an image file whose embedded metadata
container is malformed (`piexif.load` raises `ValueError`), the handler does
construct the fresh minimal exif container — but discards it, and then
executes `piexif.insert(exif_bytes, filepath)` with `exif_bytes` never
assigned, so the batch aborts with a `NameError` and the fresh container is
never written; the claimed fallback-and-continue behaviour does not happen. -/
theorem c1_malformed_exif_defect :
    make_new_exif "00000015-PHOTO-2021-04-12-18-24-22.jpg"
      = some { dateTimeOriginal := some "2021:04:12 18:24:22", rest := 0, dumpRaises := false }
    ∧ runBatch false
        [{ name := "00000015-PHOTO-2021-04-12-18-24-22.jpg", img := .malformed 7,
           mtime := 100, atime := 100 }]
      = .aborted .nameErrorExifBytes []
          { name := "00000015-PHOTO-2021-04-12-18-24-22.jpg", img := .malformed 7,
            mtime := 100, atime := 100 } [] := by decide

/-! ## Claim C3 -/

/-- C3: an image file whose metadata container loads successfully and already
carries a present, non-empty capture-date-original field is skipped with the
file state unchanged; consequently, running the image-tagging step a second
time on a file that the first run tagged is a no-op (the second run skips and
returns the file state unchanged). -/
theorem c3_idempotent (mod : Bool) (v v₂ : ExifBytesVar) (f : FSFile)
    (hext : (strEndsWith f.name ".jpg" || strEndsWith f.name ".jpeg") = true)
    (hmatch : is_whatsapp_img f.name = true) :
    (∀ d raw s, f.img = .wellFormed d raw → d.dateTimeOriginal = some s → s ≠ "" →
      processFile mod f v = .ok .skippedTagged f v)
    ∧ (∀ d raw dt, f.img = .wellFormed d raw → truthy d.dateTimeOriginal = false →
        d.dumpRaises = false → get_datetime f.name = some dt →
        ∃ f₁ v₁, processFile mod f v = .ok .tagged f₁ v₁
          ∧ processFile mod f₁ v₂ = .ok .skippedTagged f₁ v₂) := by
  constructor
  · intro d raw s himg htag hne
    have htr : truthy d.dateTimeOriginal = true := by
      rw [htag]
      simp [truthy, hne]
    exact processFile_skip_tagged mod v f hext hmatch d raw himg htr
  · intro d raw dt himg htr hdump hdt
    refine ⟨_, _, processFile_tag_success mod v f hext hmatch d raw himg htr hdump dt hdt, ?_⟩
    cases mod with
    | false =>
      simp only [Bool.false_eq_true, if_false]
      exact processFile_skip_tagged false v₂ _ hext hmatch _ raw rfl (truthy_fmtDT dt)
    | true =>
      simp only [if_true]
      exact processFile_skip_tagged true v₂ _ hext hmatch _ raw rfl (truthy_fmtDT dt)

/-- Witness for C3: a concrete already-tagged file is skipped unchanged, and
a concrete untagged file, once tagged, is skipped unchanged by a second run. -/
theorem c3_witness :
    processFile false
      { name := "00000015-PHOTO-2021-04-12-18-24-22.jpg",
        img := .wellFormed { dateTimeOriginal := some "2015:01:01 00:00:00", rest := 5,
                             dumpRaises := false } 9,
        mtime := 3, atime := 4 } .unbound
      = .ok .skippedTagged
          { name := "00000015-PHOTO-2021-04-12-18-24-22.jpg",
            img := .wellFormed { dateTimeOriginal := some "2015:01:01 00:00:00", rest := 5,
                                 dumpRaises := false } 9,
            mtime := 3, atime := 4 } .unbound
    ∧ ∃ f₁ v₁, processFile false
        { name := "00000015-PHOTO-2021-04-12-18-24-22.jpg",
          img := .wellFormed { dateTimeOriginal := none, rest := 5, dumpRaises := false } 9,
          mtime := 3, atime := 4 } .unbound = .ok .tagged f₁ v₁
        ∧ processFile false f₁ .unbound = .ok .skippedTagged f₁ .unbound := by
  constructor
  · exact (c3_idempotent false .unbound .unbound
      { name := "00000015-PHOTO-2021-04-12-18-24-22.jpg",
        img := .wellFormed { dateTimeOriginal := some "2015:01:01 00:00:00", rest := 5,
                             dumpRaises := false } 9,
        mtime := 3, atime := 4 } (by decide) (by decide)).1
      { dateTimeOriginal := some "2015:01:01 00:00:00", rest := 5, dumpRaises := false } 9
      "2015:01:01 00:00:00" rfl rfl (by decide)
  · exact (c3_idempotent false .unbound .unbound
      { name := "00000015-PHOTO-2021-04-12-18-24-22.jpg",
        img := .wellFormed { dateTimeOriginal := none, rest := 5, dumpRaises := false } 9,
        mtime := 3, atime := 4 } (by decide) (by decide)).2
      { dateTimeOriginal := none, rest := 5, dumpRaises := false } 9
      (DateTime.mk 2021 4 12 18 24 22) rfl (by decide) rfl (by decide)

/-! ## Claim C4 -/

/-- C4, counterexample: `00000003-VIDEO-2021-02-30-09-00-00.mp4` matches the
WhatsApp video pattern, yet its access and modification times are NOT set:
the encoded date (February 30) fails calendar validation, the uncaught
`ValueError` from `strptime` aborts the batch, and the file is unchanged. -/
theorem c4_counterexample :
    is_whatsapp_vid "00000003-VIDEO-2021-02-30-09-00-00.mp4" = true
    ∧ processFile false
        { name := "00000003-VIDEO-2021-02-30-09-00-00.mp4", img := .invalid 0,
          mtime := 5, atime := 5 } .unbound
      = .crash .valueErrorStrptime
          { name := "00000003-VIDEO-2021-02-30-09-00-00.mp4", img := .invalid 0,
            mtime := 5, atime := 5 } .unbound := by decide

/-- C4 (amended): for a file with extension `.mp4` or `.3gp`: if the filename
does not match the WhatsApp video pattern, the file is skipped untouched and
processing proceeds; if it matches and the encoded timestamp is
calendar-valid, both file times are set to the POSIX epoch value of the
parsed timestamp and the image content (metadata container) is neither read
nor written; if it matches but the encoded timestamp is not calendar-valid,
the uncaught parse error aborts the batch with the file untouched. -/
theorem c4_video_dispatch (mod : Bool) (v : ExifBytesVar) (f : FSFile)
    (hext : (strEndsWith f.name ".mp4" || strEndsWith f.name ".3gp") = true) :
    (is_whatsapp_vid f.name = false → processFile mod f v = .ok .skippedNotVid f v)
    ∧ (∀ dt, is_whatsapp_vid f.name = true → get_datetime f.name = some dt →
        processFile mod f v
          = .ok .vidTimesSet { f with mtime := timestamp dt, atime := timestamp dt } v
        ∧ ({ f with mtime := timestamp dt, atime := timestamp dt }).img = f.img)
    ∧ (is_whatsapp_vid f.name = true → get_datetime f.name = none →
        processFile mod f v = .crash .valueErrorStrptime f v) := by
  refine ⟨?_, ?_, ?_⟩
  · intro hm
    simp [processFile, hext, hm]
  · intro dt hm hdt
    exact ⟨by simp [processFile, hext, hm, hdt], rfl⟩
  · intro hm hdt
    simp [processFile, hext, hm, hdt]

/-- Witness for C4 at Scenario B: `00000003-VIDEO-2020-01-05-09-00-00.mp4`
gets both file times set to the epoch value of 2020-01-05 09:00:00, image
content untouched; and a non-matching `.mp4` name is skipped untouched. -/
theorem c4_witness :
    processFile false
      { name := "00000003-VIDEO-2020-01-05-09-00-00.mp4", img := .invalid 0,
        mtime := 5, atime := 6 } .unbound
      = .ok .vidTimesSet
          { name := "00000003-VIDEO-2020-01-05-09-00-00.mp4", img := .invalid 0,
            mtime := 1578214800, atime := 1578214800 } .unbound
    ∧ processFile false
        { name := "randomclip.mp4", img := .invalid 0, mtime := 5, atime := 6 } .unbound
      = .ok .skippedNotVid
          { name := "randomclip.mp4", img := .invalid 0, mtime := 5, atime := 6 } .unbound := by
  constructor
  · have h := ((c4_video_dispatch false .unbound
      { name := "00000003-VIDEO-2020-01-05-09-00-00.mp4", img := .invalid 0,
        mtime := 5, atime := 6 } (by decide)).2.1
      (DateTime.mk 2020 1 5 9 0 0) (by decide) (by decide)).1
    rw [h]
    decide
  · exact (c4_video_dispatch false .unbound
      { name := "randomclip.mp4", img := .invalid 0, mtime := 5, atime := 6 }
      (by decide)).1 (by decide)

/-! ## Claim C5 -/

/-- C5, counterexample: a per-file error can abort the batch.  An image file
whose exif container is malformed (`ValueError` from `piexif.load`) leads the
handler to read the never-assigned `exif_bytes`, and the resulting
`NameError` aborts the whole batch, leaving the remaining files unprocessed. -/
theorem c5_counterexample :
    runBatch false
      [{ name := "00000099-PHOTO-2022-06-01-10-00-00.jpg", img := .malformed 1,
         mtime := 0, atime := 0 },
       { name := "00000100-PHOTO-2022-06-01-10-00-01.jpg", img := .invalid 2,
         mtime := 0, atime := 0 }]
      = .aborted .nameErrorExifBytes []
          { name := "00000099-PHOTO-2022-06-01-10-00-00.jpg", img := .malformed 1,
            mtime := 0, atime := 0 }
          [{ name := "00000100-PHOTO-2022-06-01-10-00-01.jpg", img := .invalid 2,
             mtime := 0, atime := 0 }] := by decide

/-- C5 (amended): an image file whose image data is structurally unreadable
(`piexif.InvalidImageDataError` on load) is skipped with its state unchanged
and the batch continues with the remaining files — an invalid-image-data
error never aborts the batch (though other per-file errors can, see the
counterexample); a file whose name fails image classification is likewise
skipped unchanged. -/
theorem c5_invalid_image_data (mod : Bool) (v : ExifBytesVar) (f : FSFile) (r : Nat)
    (acc rest : List FSFile)
    (hext : (strEndsWith f.name ".jpg" || strEndsWith f.name ".jpeg") = true)
    (himg : f.img = .invalid r) :
    (is_whatsapp_img f.name = true → processFile mod f v = .ok .skippedInvalidData f v)
    ∧ (is_whatsapp_img f.name = false → processFile mod f v = .ok .skippedNotImg f v)
    ∧ (is_whatsapp_img f.name = true →
        runBatchAux mod v acc (f :: rest) = runBatchAux mod v (f :: acc) rest) := by
  have hvid := ends_img_not_vid f.name hext
  refine ⟨?_, ?_, ?_⟩
  · intro hm
    simp [processFile, hvid, hext, hm, himg]
  · intro hm
    simp [processFile, hvid, hext, hm]
  · intro hm
    have h1 : processFile mod f v = .ok .skippedInvalidData f v := by
      simp [processFile, hvid, hext, hm, himg]
    simp only [runBatchAux, h1]

/-- Witness for C5: a concrete structurally unreadable image is skipped
unchanged and the batch continues past it. -/
theorem c5_witness :
    processFile false
      { name := "00000015-PHOTO-2021-04-12-18-24-22.jpg", img := .invalid 3,
        mtime := 7, atime := 8 } .unbound
      = .ok .skippedInvalidData
          { name := "00000015-PHOTO-2021-04-12-18-24-22.jpg", img := .invalid 3,
            mtime := 7, atime := 8 } .unbound
    ∧ runBatchAux false .unbound []
        [{ name := "00000015-PHOTO-2021-04-12-18-24-22.jpg", img := .invalid 3,
           mtime := 7, atime := 8 }]
      = runBatchAux false .unbound
          [{ name := "00000015-PHOTO-2021-04-12-18-24-22.jpg", img := .invalid 3,
             mtime := 7, atime := 8 }] [] := by
  have h := c5_invalid_image_data false .unbound
    { name := "00000015-PHOTO-2021-04-12-18-24-22.jpg", img := .invalid 3,
      mtime := 7, atime := 8 } 3 [] [] (by decide) rfl
  exact ⟨h.1 (by decide), h.2.2 (by decide)⟩

/-! ## Claim C8 -/

/-- C8: when a valid untagged WhatsApp image is successfully tagged, the
`mod` option additionally sets the file's times to the capture timestamp
after the metadata write; without the option only the embedded tag is
written and the file's modification time is unchanged. -/
theorem c8_mod_option (v : ExifBytesVar) (f : FSFile) (d : ExifDict) (raw : Nat)
    (dt : DateTime)
    (hext : (strEndsWith f.name ".jpg" || strEndsWith f.name ".jpeg") = true)
    (hmatch : is_whatsapp_img f.name = true)
    (himg : f.img = .wellFormed d raw)
    (htr : truthy d.dateTimeOriginal = false)
    (hdump : d.dumpRaises = false)
    (hdt : get_datetime f.name = some dt) :
    processFile true f v
      = .ok .tagged
          { f with img := .wellFormed { d with dateTimeOriginal := some (fmtDT dt) } raw,
                   mtime := timestamp dt, atime := timestamp dt }
          (.bound { d with dateTimeOriginal := some (fmtDT dt) })
    ∧ processFile false f v
      = .ok .tagged
          { f with img := .wellFormed { d with dateTimeOriginal := some (fmtDT dt) } raw }
          (.bound { d with dateTimeOriginal := some (fmtDT dt) })
    ∧ ({ f with img := .wellFormed { d with dateTimeOriginal := some (fmtDT dt) } raw }).mtime
        = f.mtime := by
  refine ⟨?_, ?_, rfl⟩
  · have h := processFile_tag_success true v f hext hmatch d raw himg htr hdump dt hdt
    simpa using h
  · have h := processFile_tag_success false v f hext hmatch d raw himg htr hdump dt hdt
    simpa using h

/-- Witness for C8 on a concrete untagged image: with `mod` the times become
the capture timestamp; without it the modification time stays at its old
value. -/
theorem c8_witness :
    processFile true
      { name := "00000015-PHOTO-2021-04-12-18-24-22.jpg",
        img := .wellFormed { dateTimeOriginal := none, rest := 2, dumpRaises := false } 9,
        mtime := 5, atime := 6 } .unbound
      = .ok .tagged
          { name := "00000015-PHOTO-2021-04-12-18-24-22.jpg",
            img := .wellFormed { dateTimeOriginal := some "2021:04:12 18:24:22", rest := 2,
                                 dumpRaises := false } 9,
            mtime := 1618251862, atime := 1618251862 }
          (.bound { dateTimeOriginal := some "2021:04:12 18:24:22", rest := 2,
                    dumpRaises := false })
    ∧ processFile false
        { name := "00000015-PHOTO-2021-04-12-18-24-22.jpg",
          img := .wellFormed { dateTimeOriginal := none, rest := 2, dumpRaises := false } 9,
          mtime := 5, atime := 6 } .unbound
      = .ok .tagged
          { name := "00000015-PHOTO-2021-04-12-18-24-22.jpg",
            img := .wellFormed { dateTimeOriginal := some "2021:04:12 18:24:22", rest := 2,
                                 dumpRaises := false } 9,
            mtime := 5, atime := 6 }
          (.bound { dateTimeOriginal := some "2021:04:12 18:24:22", rest := 2,
                    dumpRaises := false }) := by
  have h := c8_mod_option .unbound
    { name := "00000015-PHOTO-2021-04-12-18-24-22.jpg",
      img := .wellFormed { dateTimeOriginal := none, rest := 2, dumpRaises := false } 9,
      mtime := 5, atime := 6 }
    { dateTimeOriginal := none, rest := 2, dumpRaises := false } 9
    (DateTime.mk 2021 4 12 18 24 22) (by decide) (by decide) rfl (by decide) rfl (by decide)
  constructor
  · rw [h.1]
    decide
  · rw [h.2.1]
    decide

/-! ## Lemmas: enumeration and filtering -/

theorem keepName_spec {fn : String} (h : keepName fn = true) :
    fn ≠ ".DS_Store" ∧ fn ≠ "_chat.txt" ∧ strStartsWith fn "._" = false := by
  unfold keepName ignored_files at h
  simp only [Bool.and_eq_true, Bool.not_eq_true', decide_eq_false_iff_not,
    List.mem_cons, List.mem_singleton, List.not_mem_nil] at h
  obtain ⟨h1, h2⟩ := h
  push_neg at h1
  exact ⟨h1.1, h1.2.1, h2⟩

theorem mem_get_filepaths_nonrecursive {ap dir fn : String}
    {entries : List (String × Bool)}
    (h : (dir, fn) ∈ get_filepaths_nonrecursive ap entries) :
    dir = ap ∧ (fn, true) ∈ entries ∧ keepName fn = true := by
  unfold get_filepaths_nonrecursive at h
  simp only [List.mem_map, List.mem_filter] at h
  obtain ⟨e, ⟨he, hp⟩, heq⟩ := h
  rw [Bool.and_eq_true] at hp
  obtain ⟨h2, hk⟩ := hp
  obtain ⟨hd, hf⟩ := Prod.mk.injEq .. |>.mp heq
  subst hd
  subst hf
  have he2 : e = (e.1, true) := by
    rw [← h2]
  rw [he2] at he
  exact ⟨rfl, he, hk⟩

theorem mem_get_filepaths_recursive {dir fn : String}
    {walk : List (String × List String)}
    (h : (dir, fn) ∈ get_filepaths_recursive walk) :
    (∃ fs, (dir, fs) ∈ walk ∧ fn ∈ fs) ∧ keepName fn = true := by
  unfold get_filepaths_recursive at h
  simp only [List.mem_flatten, List.mem_map] at h
  obtain ⟨l, ⟨dpair, hd, hl⟩, hmem⟩ := h
  subst hl
  simp only [List.mem_map, List.mem_filter] at hmem
  obtain ⟨g, ⟨hg, hk⟩, heq⟩ := hmem
  obtain ⟨h1, h2⟩ := Prod.mk.injEq .. |>.mp heq
  subst h2
  refine ⟨⟨dpair.2, ?_, hg⟩, hk⟩
  rw [← h1]
  exact hd

theorem mem_filter_filepaths_sub {x : String × String} {fps : List (String × String)}
    {ae : List String} (h : x ∈ filter_filepaths fps ae) : x ∈ fps :=
  (List.mem_filter.mp h).1

theorem mem_filtered_filepaths_sub {x : String × String}
    {u f : List (String × String)} (h : x ∈ filtered_filepaths u f) : x ∈ u :=
  (List.mem_filter.mp h).1

/-! ## Claim C6 -/

/-- C6: for any enumerated file list, the extension filter yields an included
list consisting exactly of the pairs whose literal `splitext` extension is in
the allow-list, in enumeration order (a sublist), and an excluded list that
is exactly the complement; included and excluded cover the whole list and
are disjoint. -/
theorem c6_partition (fps : List (String × String)) :
    (∀ x, x ∈ filter_filepaths fps allowed_extensions
        ↔ x ∈ fps ∧ (splitext x.2).2 ∈ allowed_extensions)
    ∧ (∀ x, x ∈ filtered_filepaths fps (filter_filepaths fps allowed_extensions)
        ↔ x ∈ fps ∧ (splitext x.2).2 ∉ allowed_extensions)
    ∧ (filter_filepaths fps allowed_extensions).Sublist fps
    ∧ (filtered_filepaths fps (filter_filepaths fps allowed_extensions)).Sublist fps
    ∧ (∀ x, x ∈ fps ↔ x ∈ filter_filepaths fps allowed_extensions
        ∨ x ∈ filtered_filepaths fps (filter_filepaths fps allowed_extensions))
    ∧ (∀ x, ¬(x ∈ filter_filepaths fps allowed_extensions
        ∧ x ∈ filtered_filepaths fps (filter_filepaths fps allowed_extensions))) := by
  have hinc : ∀ x, x ∈ filter_filepaths fps allowed_extensions
      ↔ x ∈ fps ∧ (splitext x.2).2 ∈ allowed_extensions := by
    intro x
    unfold filter_filepaths
    rw [List.mem_filter]
    simp
  have hexc : ∀ x, x ∈ filtered_filepaths fps (filter_filepaths fps allowed_extensions)
      ↔ x ∈ fps ∧ (splitext x.2).2 ∉ allowed_extensions := by
    intro x
    unfold filtered_filepaths
    rw [List.mem_filter]
    constructor
    · rintro ⟨hx, hb⟩
      refine ⟨hx, fun hp => ?_⟩
      have hm : x ∈ filter_filepaths fps allowed_extensions := (hinc x).mpr ⟨hx, hp⟩
      simp [hm] at hb
    · rintro ⟨hx, hnp⟩
      have hm : x ∉ filter_filepaths fps allowed_extensions :=
        fun hm => hnp ((hinc x).mp hm).2
      simp [hx, hm]
  refine ⟨hinc, hexc, ?_, ?_, ?_, ?_⟩
  · unfold filter_filepaths
    exact List.filter_sublist fps
  · unfold filtered_filepaths
    exact List.filter_sublist fps
  · intro x
    have h1 := hinc x
    have h2 := hexc x
    by_cases hp : (splitext x.2).2 ∈ allowed_extensions <;> tauto
  · intro x
    have h1 := hinc x
    have h2 := hexc x
    tauto

/-- Witness for C6: in a concrete two-file listing, the `.jpg` file lands in
the included list and the `.txt` file in the excluded list. -/
theorem c6_witness :
    ("/a", "x.jpg") ∈ filter_filepaths [("/a", "x.jpg"), ("/a", "y.txt")] allowed_extensions
    ∧ ("/a", "y.txt") ∈ filtered_filepaths [("/a", "x.jpg"), ("/a", "y.txt")]
        (filter_filepaths [("/a", "x.jpg"), ("/a", "y.txt")] allowed_extensions) := by
  have h := c6_partition [("/a", "x.jpg"), ("/a", "y.txt")]
  exact ⟨(h.1 _).mpr ⟨by decide, by decide⟩, (h.2.1 _).mpr ⟨by decide, by decide⟩⟩

/-! ## Claim C7 -/

/-- C7: in both enumeration modes, no returned pair carries the filename
`.DS_Store` or `_chat.txt` nor one beginning with `._`; consequently such
names appear in neither the included nor the excluded list derived from the
enumeration. -/
theorem c7_exclusions (ap dir fn : String) (entries : List (String × Bool))
    (walk : List (String × List String)) :
    ((dir, fn) ∈ get_filepaths_nonrecursive ap entries
      ∨ (dir, fn) ∈ get_filepaths_recursive walk
      ∨ (dir, fn) ∈ filter_filepaths (get_filepaths_nonrecursive ap entries)
          allowed_extensions
      ∨ (dir, fn) ∈ filtered_filepaths (get_filepaths_nonrecursive ap entries)
          (filter_filepaths (get_filepaths_nonrecursive ap entries) allowed_extensions)
      ∨ (dir, fn) ∈ filter_filepaths (get_filepaths_recursive walk) allowed_extensions
      ∨ (dir, fn) ∈ filtered_filepaths (get_filepaths_recursive walk)
          (filter_filepaths (get_filepaths_recursive walk) allowed_extensions)) →
    fn ≠ ".DS_Store" ∧ fn ≠ "_chat.txt" ∧ strStartsWith fn "._" = false := by
  intro h
  have hk : keepName fn = true := by
    rcases h with h | h | h | h | h | h
    · exact (mem_get_filepaths_nonrecursive h).2.2
    · exact (mem_get_filepaths_recursive h).2
    · exact (mem_get_filepaths_nonrecursive (mem_filter_filepaths_sub h)).2.2
    · exact (mem_get_filepaths_nonrecursive (mem_filtered_filepaths_sub h)).2.2
    · exact (mem_get_filepaths_recursive (mem_filter_filepaths_sub h)).2
    · exact (mem_get_filepaths_recursive (mem_filtered_filepaths_sub h)).2
  exact keepName_spec hk

/-- Witness for C7: a kept concrete enumeration entry indeed has none of the
excluded name shapes. -/
theorem c7_witness :
    ("a.jpg" : String) ≠ ".DS_Store" ∧ ("a.jpg" : String) ≠ "_chat.txt"
    ∧ strStartsWith "a.jpg" "._" = false :=
  c7_exclusions "/a" "/a" "a.jpg" [("a.jpg", true)] [] (Or.inl (by decide))

/-! ## Claim C9 -/

/-- C9: a file whose entire name equals one of the allowed extensions (for
example `.jpg`) is placed in the excluded set: `splitext` treats the leading
dot as part of the basename, so the extension is empty and fails the
allow-list test. -/
theorem c9_bare_extension_excluded (dir fn : String) (fps : List (String × String))
    (hfn : fn ∈ allowed_extensions) (hmem : (dir, fn) ∈ fps) :
    splitext fn = (fn, "")
    ∧ (dir, fn) ∉ filter_filepaths fps allowed_extensions
    ∧ (dir, fn) ∈ filtered_filepaths fps (filter_filepaths fps allowed_extensions) := by
  have hsp : splitext fn = (fn, "") := by
    unfold allowed_extensions at hfn
    simp only [List.mem_cons, List.mem_singleton, List.not_mem_nil, or_false] at hfn
    rcases hfn with rfl | rfl | rfl | rfl <;> decide
  have hnot : (dir, fn) ∉ filter_filepaths fps allowed_extensions := by
    intro hm
    have h2 := (List.mem_filter.mp hm).2
    simp only [decide_eq_true_eq] at h2
    rw [hsp] at h2
    simp [allowed_extensions] at h2
  refine ⟨hsp, hnot, ?_⟩
  unfold filtered_filepaths
  rw [List.mem_filter]
  exact ⟨hmem, by simp [hnot]⟩

/-- Witness for C9: a file literally named `.jpg` is excluded. -/
theorem c9_witness :
    splitext ".jpg" = (".jpg", "")
    ∧ ("/a", ".jpg") ∉ filter_filepaths [("/a", ".jpg")] allowed_extensions
    ∧ ("/a", ".jpg") ∈ filtered_filepaths [("/a", ".jpg")]
        (filter_filepaths [("/a", ".jpg")] allowed_extensions) :=
  c9_bare_extension_excluded "/a" ".jpg" [("/a", ".jpg")] (by decide) (by decide)

/-! ## Claim C10 -/

/-- C10: in non-recursive mode every returned (directory, filename) pair
refers to a regular file of the root (`os.path.isfile` answered true), and an
entry that is not a regular file is never enumerated. -/
theorem c10_nonrecursive_regular_files (ap dir fn : String)
    (entries : List (String × Bool)) :
    ((dir, fn) ∈ get_filepaths_nonrecursive ap entries → dir = ap ∧ (fn, true) ∈ entries)
    ∧ ((fn, false) ∈ entries ∧ (fn, true) ∉ entries →
        (dir, fn) ∉ get_filepaths_nonrecursive ap entries) := by
  constructor
  · intro h
    exact ⟨(mem_get_filepaths_nonrecursive h).1, (mem_get_filepaths_nonrecursive h).2.1⟩
  · rintro ⟨_, hnf⟩ hm
    exact hnf (mem_get_filepaths_nonrecursive hm).2.1

/-- Witness for C10: in a concrete listing with a regular file and a
subdirectory, the file is enumerated from the root and the subdirectory is
not. -/
theorem c10_witness :
    ("/a" = "/a" ∧ ("a.jpg", true) ∈ [("a.jpg", true), ("sub", false)])
    ∧ ("/a", "sub") ∉ get_filepaths_nonrecursive "/a" [("a.jpg", true), ("sub", false)] :=
  ⟨(c10_nonrecursive_regular_files "/a" "/a" "a.jpg" [("a.jpg", true), ("sub", false)]).1
      (by decide),
   (c10_nonrecursive_regular_files "/a" "/a" "sub" [("a.jpg", true), ("sub", false)]).2
      ⟨by decide, by decide⟩⟩

